import Mathlib

/-!
# Verification of `src/native/windows/cursor.cc`

The module exports three entry points to a scripting host.  Each one converts
its numeric arguments to native integers and forwards them to the windowing
system, discarding whatever the system returns.

The embedding has three layers.

* Numbers: the host hands over IEEE-754 doubles.  A finite double is a signed
  dyadic number, `±mant * 2 ^ exp`; the conversions to `LONG`, `int` and
  `int64_t` discard the fractional part.
* Programs: an entry point is a tree of system calls.  Every call hands a
  result to a continuation, and the source ignores that result each time.
* The windowing system: a state (display counter, clipping rectangle, cursor
  position, display affinity of every window) and the documented effect of
  each of the four system calls on it.
-/

namespace Cursor

/-! ## Host numbers -/

/-- The value of a host `Number`: the result of `args[i].As<Number>()->Value()`.
A finite double is `(-1)^neg * mant * 2^exp`; an IEEE-754 binary64 has
`mant < 2^53` and `-1074 ≤ exp ≤ 971`, and the results below hold for every
dyadic number, so for every binary64 in particular. -/
inductive Double where
  | finite (neg : Bool) (mant : Nat) (exp : Int)
  | inf (neg : Bool)
  | nan
  deriving DecidableEq, Repr

/-- The exact rational value of a finite double. -/
def Double.value : Double → Option ℚ
  | .finite neg mant exp => some ((if neg then -1 else 1) * ((mant : ℚ) * (2 : ℚ) ^ exp))
  | .inf _ => none
  | .nan => none

/-- The integer part of a double, the fractional part discarded: what a
floating-to-integer conversion yields before the destination type is
considered.  Infinities and NaN have none. -/
def Double.trunc : Double → Option Int
  | .finite neg mant exp =>
      let mag : Nat := if 0 ≤ exp then mant * 2 ^ exp.toNat else mant / 2 ^ (-exp).toNat
      some (if neg then -(mag : Int) else (mag : Int))
  | .inf _ => none
  | .nan => none

/-- Rounding a rational toward zero, stated with floor and ceiling. -/
def roundTowardZero (q : ℚ) : Int := if 0 ≤ q then ⌊q⌋ else ⌈q⌉

/-! ## Native integers -/

/-- Smallest value of a signed integer of `w` bits. -/
def minSigned (w : Nat) : Int := -(2 : Int) ^ (w - 1)

/-- Largest value of a signed integer of `w` bits. -/
def maxSigned (w : Nat) : Int := (2 : Int) ^ (w - 1) - 1

/-- Two-complement wrap of an integer into `w` bits, read as signed. -/
def wrapSigned (w : Nat) (v : Int) : Int :=
  (v - minSigned w) % (2 : Int) ^ w + minSigned w

/-- The conversion `static_cast<T>(d)` from `double` to a signed integer type of
`w` bits: the fractional part is discarded.  When the truncated value does not
fit, or `d` is an infinity or NaN, the language leaves the result undefined;
the model returns what the x86-64 conversion instruction returns then, the
smallest value of the type. -/
def castSigned (w : Nat) (d : Double) : Int :=
  match d.trunc with
  | some t => if minSigned w ≤ t ∧ t ≤ maxSigned w then t else minSigned w
  | none => minSigned w

/-- Width of `LONG`, the field type of `RECT` (`long`, 32 bits on Windows). -/
def LONG_BITS : Nat := 32

/-- Width of `int`, the parameter type of `SetCursorPos`. -/
def INT_BITS : Nat := 32

/-- Width of `HWND`, a pointer, on a 64-bit Windows target. -/
def HWND_BITS : Nat := 64

/-- The conversion `static_cast<LONG>(d)`. -/
def castLONG (d : Double) : Int := castSigned LONG_BITS d

/-- The conversion `static_cast<int>(d)`. -/
def castInt (d : Double) : Int := castSigned INT_BITS d

/-- The conversion `static_cast<int64_t>(d)`. -/
def castInt64 (d : Double) : Int := castSigned 64 d

/-- The conversion `(HWND)v` of an `int64_t` to a window handle: the low
`HWND_BITS` bits of the value, kept as the handle's numeric identity. -/
def castHWND (v : Int) : Int := wrapSigned HWND_BITS v

/-- Addition on `LONG`, as in `rect.left + 1`: the sum is again a `LONG`, and
a sum outside the 32-bit range wraps around, as it does on the compilers that
target Windows. -/
def addLONG (a b : Int) : Int := wrapSigned LONG_BITS (a + b)

/-! ## System calls -/

/-- The Windows `RECT`: four `LONG` fields. -/
structure RECT where
  left : Int
  top : Int
  right : Int
  bottom : Int
  deriving DecidableEq, Repr

/-- The display affinities of `windows.h`, by name.  A new window has
`WDA_NONE`; with `WDA_MONITOR` the content of the window is shown on a monitor
only and is left out of captures; with `WDA_EXCLUDEFROMCAPTURE` the window is
left out of captures altogether. -/
inductive DisplayAffinity where
  | WDA_NONE
  | WDA_MONITOR
  | WDA_EXCLUDEFROMCAPTURE
  deriving DecidableEq, Repr

/-- The four system calls the module makes, with their arguments. -/
inductive OsCall where
  | ShowCursor (bShow : Bool)
  | ClipCursor (lpRect : Option RECT)
  | SetCursorPos (X Y : Int)
  | SetWindowDisplayAffinity (hWnd : Int) (dwAffinity : DisplayAffinity)
  deriving DecidableEq, Repr

/-- How an entry point hands control back to the host: it returns, with the
value it stored through `args.GetReturnValue()` if it stored one, or it leaves
an exception thrown on the isolate. -/
inductive Outcome where
  | returned (value : Option Double)
  | threw
  deriving DecidableEq, Repr

/-- A native entry point as a tree of system calls: either it ends with an
outcome, or it makes a call and continues with the integer the system
returned (`int` for `ShowCursor`, `BOOL` for the others). -/
inductive Prog where
  | done (o : Outcome) : Prog
  | call (c : OsCall) (k : Int → Prog) : Prog

/-- The end of a `void` function that stored no return value and threw
nothing. -/
def Prog.finish : Prog := .done (.returned none)

/-! ## The three entry points -/

/-- The entry point `SetWindowHiddenFromCapture`, `args[0]` being the
number `h`. -/
def SetWindowHiddenFromCapture (h : Double) : Prog :=
  let hwnd := castHWND (castInt64 h)
  .call (.SetWindowDisplayAffinity hwnd .WDA_MONITOR) fun _ => .finish

/-- The entry point `HideAndLockCursor`, `args[0]` and `args[1]` being the
numbers `x` and `y`. -/
def HideAndLockCursor (x y : Double) : Prog :=
  .call (.ShowCursor false) fun _ =>
    let left := castLONG x
    let top := castLONG y
    let right := addLONG left 1
    let bottom := addLONG top 1
    let rect : RECT := { left := left, top := top, right := right, bottom := bottom }
    .call (.ClipCursor (some rect)) fun _ =>
      .call (.SetCursorPos (castInt x) (castInt y)) fun _ => .finish

/-- The entry point `RestoreCursor`; the argument list `args` is not used. -/
def RestoreCursor (_args : List Double) : Prog :=
  .call (.ShowCursor true) fun _ =>
    .call (.ClipCursor none) fun _ => .finish

/-! ## Running a program -/

/-- The calls a program issues when the system answers its `i`-th call with
`answers i`, in order. -/
def Prog.calls : Prog → (Nat → Int) → List OsCall
  | .done _, _ => []
  | .call c k, answers => c :: (k (answers 0)).calls fun i => answers (i + 1)

/-- The outcome of a program when the system answers its `i`-th call with
`answers i`. -/
def Prog.outcome : Prog → (Nat → Int) → Outcome
  | .done o, _ => o
  | .call _ k, answers => (k (answers 0)).outcome fun i => answers (i + 1)

/-- Modelled from the spec: the windowing system is not part of the
repository.  The state the module acts on: the display counter, the clipping
rectangle, the cursor position and the display affinity of every window. -/
structure OsState where
  /-- The cursor display counter; the cursor is shown when it is not negative. -/
  displayCount : Int
  /-- The clipping rectangle; `none` when the cursor is not confined. -/
  clip : Option RECT
  /-- The cursor position. -/
  cursorPos : Int × Int
  /-- The display affinity of each window, by handle. -/
  affinity : Int → DisplayAffinity

/-- The cursor is shown. -/
def OsState.cursorVisible (s : OsState) : Prop := 0 ≤ s.displayCount

instance (s : OsState) : Decidable s.cursorVisible := by
  unfold OsState.cursorVisible; infer_instance

/-- A point lies in a rectangle; `right` and `bottom` are exclusive. -/
def RECT.contains (r : RECT) (p : Int × Int) : Prop :=
  r.left ≤ p.1 ∧ p.1 < r.right ∧ r.top ≤ p.2 ∧ p.2 < r.bottom

instance (r : RECT) (p : Int × Int) : Decidable (r.contains p) := by
  unfold RECT.contains; infer_instance

/-- Modelled from the spec: the windowing system is not part of the
repository.  The adjustment the system makes to a requested cursor position:
with a clipping rectangle each coordinate is brought into it (the spec's
"clamped back inside it"), without one the position is kept. -/
def clampToClip (clip : Option RECT) (p : Int × Int) : Int × Int :=
  match clip with
  | none => p
  | some r => (max r.left (min p.1 (r.right - 1)), max r.top (min p.2 (r.bottom - 1)))

/-- Modelled from the spec: the windowing system is not part of the
repository.  The effect of one successful system call on the state, with the
value the call returns.  `ShowCursor` moves the display counter by one, down
for `FALSE` and up for `TRUE`, and returns it; `ClipCursor` replaces the
clipping rectangle, `NULL` clearing it; `SetCursorPos` moves the cursor,
adjusted to the clipping rectangle; `SetWindowDisplayAffinity` sets the
affinity of one window. -/
def osStep (s : OsState) : OsCall → OsState × Int
  | .ShowCursor bShow =>
      let n := if bShow then s.displayCount + 1 else s.displayCount - 1
      ({ s with displayCount := n }, n)
  | .ClipCursor lpRect => ({ s with clip := lpRect }, 1)
  | .SetCursorPos X Y => ({ s with cursorPos := clampToClip s.clip (X, Y) }, 1)
  | .SetWindowDisplayAffinity hWnd dwAffinity =>
      ({ s with affinity := Function.update s.affinity hWnd dwAffinity }, 1)

/-- Runs a program against the windowing system. -/
def Prog.run : Prog → OsState → OsState
  | .done _, s => s
  | .call c k, s => (k (osStep s c).2).run (osStep s c).1

/-- Runs `HideAndLockCursor` once for each coordinate pair, in order. -/
def hideAll : List (Double × Double) → OsState → OsState
  | [], s => s
  | (x, y) :: rest, s => hideAll rest ((HideAndLockCursor x y).run s)

/-- Runs `RestoreCursor` the given number of times. -/
def restoreTimes : Nat → OsState → OsState
  | 0, s => s
  | m + 1, s => restoreTimes m ((RestoreCursor []).run s)

/-! ## Sample inputs -/

/-- The double nearest to `10.9`. -/
def d10_9 : Double := .finite false 6136154492292301 (-49)

/-- The double `-0.5`. -/
def dNegHalf : Double := .finite true 1 (-1)

/-- The double `-1.5`. -/
def dNeg1_5 : Double := .finite true 3 (-1)

/-- The double of an integer. -/
def Double.ofInt (n : Int) : Double := .finite (decide (n < 0)) n.natAbs 0

/-- A starting state: cursor shown, not confined, at the origin, no window
with a display affinity. -/
def OsState.initial : OsState :=
  { displayCount := 0, clip := none, cursorPos := (0, 0), affinity := fun _ => .WDA_NONE }

/-- The state after `HideAndLockCursor(0, 0)`, `HideAndLockCursor(10, 10)` and
one `RestoreCursor()`. -/
def hideHideRestore (s : OsState) : OsState :=
  (RestoreCursor []).run
    ((HideAndLockCursor (Double.ofInt 10) (Double.ofInt 10)).run
      ((HideAndLockCursor (Double.ofInt 0) (Double.ofInt 0)).run s))

/-! ## Conversions -/

theorem minSigned_32 : minSigned 32 = -2147483648 := by decide

theorem maxSigned_32 : maxSigned 32 = 2147483647 := by decide

theorem minSigned_64 : minSigned 64 = -9223372036854775808 := by decide

theorem maxSigned_64 : maxSigned 64 = 9223372036854775807 := by decide

/-- A conversion whose truncated value fits the destination yields that value. -/
theorem castSigned_of_fits (w : Nat) (d : Double) (t : Int) (h : d.trunc = some t)
    (hlo : minSigned w ≤ t) (hhi : t ≤ maxSigned w) : castSigned w d = t := by
  simp [castSigned, h, hlo, hhi]

theorem castLONG_of_fits (d : Double) (t : Int) (h : d.trunc = some t)
    (hlo : -2147483648 ≤ t) (hhi : t ≤ 2147483647) : castLONG d = t :=
  castSigned_of_fits 32 d t h (by rw [minSigned_32]; exact hlo) (by rw [maxSigned_32]; exact hhi)

theorem castInt_of_fits (d : Double) (t : Int) (h : d.trunc = some t)
    (hlo : -2147483648 ≤ t) (hhi : t ≤ 2147483647) : castInt d = t :=
  castSigned_of_fits 32 d t h (by rw [minSigned_32]; exact hlo) (by rw [maxSigned_32]; exact hhi)

theorem castInt64_of_fits (d : Double) (t : Int) (h : d.trunc = some t)
    (hlo : -9223372036854775808 ≤ t) (hhi : t ≤ 9223372036854775807) : castInt64 d = t :=
  castSigned_of_fits 64 d t h (by rw [minSigned_64]; exact hlo) (by rw [maxSigned_64]; exact hhi)

/-- Adding one to a `LONG` below the largest one does not wrap. -/
theorem addLONG_one (t : Int) (hlo : -2147483648 ≤ t) (hhi : t ≤ 2147483646) :
    addLONG t 1 = t + 1 := by
  unfold addLONG wrapSigned LONG_BITS
  rw [minSigned_32]
  have h : (t + 1 - -2147483648) % (2 : Int) ^ 32 = t + 1 - -2147483648 :=
    Int.emod_eq_of_lt (by omega) (by norm_num; omega)
  rw [h]; ring

/-- A handle value that fits 64 bits is kept by the conversion to `HWND`. -/
theorem castHWND_of_fits (v : Int) (hlo : -9223372036854775808 ≤ v)
    (hhi : v ≤ 9223372036854775807) : castHWND v = v := by
  unfold castHWND wrapSigned HWND_BITS
  rw [minSigned_64]
  have h : (v - -9223372036854775808) % (2 : Int) ^ 64 = v - -9223372036854775808 :=
    Int.emod_eq_of_lt (by omega) (by norm_num; omega)
  rw [h]; ring

/-- The integer part of a non-negative dyadic number is its floor. -/
theorem floor_dyadic (mant : Nat) (exp : Int) :
    ⌊(mant : ℚ) * (2 : ℚ) ^ exp⌋
      = ((if 0 ≤ exp then mant * 2 ^ exp.toNat else mant / 2 ^ (-exp).toNat : Nat) : Int) := by
  by_cases he : 0 ≤ exp
  · obtain ⟨k, rfl⟩ := Int.eq_ofNat_of_zero_le he
    simp only [he, if_true, Int.toNat_ofNat, zpow_natCast]
    have : (mant : ℚ) * (2 : ℚ) ^ k = (((mant * 2 ^ k : Nat) : Int) : ℚ) := by push_cast; ring
    rw [this, Int.floor_intCast]
  · have hneg : 0 ≤ -exp := by omega
    obtain ⟨k, hk⟩ := Int.eq_ofNat_of_zero_le hneg
    have hexp : exp = -(k : Int) := by omega
    subst hexp
    simp only [he, if_false, neg_neg, Int.toNat_ofNat, zpow_neg, zpow_natCast]
    have : (mant : ℚ) * ((2 : ℚ) ^ k)⁻¹ = ((mant : Int) : ℚ) / ((2 ^ k : Nat) : ℚ) := by
      push_cast; rw [div_eq_mul_inv]
    rw [this, Rat.floor_intCast_div_natCast]
    push_cast; rfl

/-- Rounding a signed magnitude toward zero rounds the magnitude down. -/
theorem roundTowardZero_signed (neg : Bool) (v : ℚ) (mag : Nat) (hnn : 0 ≤ v)
    (hfl : ⌊v⌋ = (mag : Int)) :
    roundTowardZero ((if neg then -1 else 1) * v) = if neg then -(mag : Int) else (mag : Int) := by
  unfold roundTowardZero
  cases neg with
  | false => simp [hnn, hfl]
  | true =>
    simp only [if_true, neg_one_mul]
    by_cases h0 : v = 0
    · subst h0
      simp at hfl
      simp [← hfl]
    · have hpos : 0 < v := lt_of_le_of_ne hnn (Ne.symm h0)
      have hlt : ¬ (0 : ℚ) ≤ -v := by linarith
      rw [if_neg hlt, Int.ceil_neg, hfl]

/-- The discarded-fraction integer part of a double is its value rounded toward
zero. -/
theorem trunc_eq_roundTowardZero (d : Double) :
    d.trunc = d.value.map roundTowardZero := by
  cases d with
  | inf neg => rfl
  | nan => rfl
  | finite neg mant exp =>
    have hnn : (0 : ℚ) ≤ (mant : ℚ) * (2 : ℚ) ^ exp :=
      mul_nonneg (Nat.cast_nonneg mant) (zpow_nonneg (by norm_num) exp)
    simp only [Double.trunc, Double.value, Option.map_some']
    rw [roundTowardZero_signed neg _ _ hnn (floor_dyadic mant exp)]

/-! ## What one run of each entry point does to the state -/

theorem HideAndLockCursor_run (s : OsState) (x y : Double) :
    (HideAndLockCursor x y).run s =
      { displayCount := s.displayCount - 1
        clip := some ⟨castLONG x, castLONG y, addLONG (castLONG x) 1, addLONG (castLONG y) 1⟩
        cursorPos := clampToClip
          (some ⟨castLONG x, castLONG y, addLONG (castLONG x) 1, addLONG (castLONG y) 1⟩)
          (castInt x, castInt y)
        affinity := s.affinity } := rfl

theorem RestoreCursor_run (s : OsState) (args : List Double) :
    (RestoreCursor args).run s =
      { displayCount := s.displayCount + 1
        clip := none
        cursorPos := s.cursorPos
        affinity := s.affinity } := rfl

/-- A position request against a one-pixel rectangle always lands on its
pixel. -/
theorem clampToClip_pixel (tx ty : Int) (p : Int × Int) :
    clampToClip (some ⟨tx, ty, tx + 1, ty + 1⟩) p = (tx, ty) := by
  simp only [clampToClip, add_sub_cancel_right, Prod.mk.injEq]
  constructor <;> omega

theorem hideAll_displayCount (coords : List (Double × Double)) (s : OsState) :
    (hideAll coords s).displayCount = s.displayCount - coords.length := by
  induction coords generalizing s with
  | nil => simp [hideAll]
  | cons p rest ih =>
    obtain ⟨x, y⟩ := p
    rw [hideAll, ih, HideAndLockCursor_run]
    simp only [List.length_cons, Nat.cast_add, Nat.cast_one]
    ring

theorem restoreTimes_displayCount (m : Nat) (s : OsState) :
    (restoreTimes m s).displayCount = s.displayCount + m := by
  induction m generalizing s with
  | zero => simp [restoreTimes]
  | succ m ih =>
    rw [restoreTimes, ih, RestoreCursor_run]
    simp only [Nat.cast_add, Nat.cast_one]
    ring

/-! ## The claims -/

/-- C1, as amended.  For every pair of numbers whose truncations `tx`, `ty`
lie between `-2^31` and `2^31 - 2`, `HideAndLockCursor` issues exactly the
three calls `ShowCursor(FALSE)`, `ClipCursor` of the rectangle
`(tx, ty, tx + 1, ty + 1)` and `SetCursorPos(tx, ty)`, in this order and
whatever the system answers; the run lowers the display counter by one and
leaves the display affinity of every window as it was. -/
theorem HideAndLockCursor_issues_three_calls (s : OsState) (x y : Double) (tx ty : Int)
    (answers : Nat → Int) (hx : x.trunc = some tx) (hy : y.trunc = some ty)
    (hxr : -2147483648 ≤ tx ∧ tx ≤ 2147483646) (hyr : -2147483648 ≤ ty ∧ ty ≤ 2147483646) :
    (HideAndLockCursor x y).calls answers =
        [.ShowCursor false, .ClipCursor (some ⟨tx, ty, tx + 1, ty + 1⟩), .SetCursorPos tx ty]
      ∧ ((HideAndLockCursor x y).run s).displayCount = s.displayCount - 1
      ∧ ∀ w : Int, ((HideAndLockCursor x y).run s).affinity w = s.affinity w := by
  have hcx := castLONG_of_fits x tx hx hxr.1 (by omega)
  have hcy := castLONG_of_fits y ty hy hyr.1 (by omega)
  have hix := castInt_of_fits x tx hx hxr.1 (by omega)
  have hiy := castInt_of_fits y ty hy hyr.1 (by omega)
  refine ⟨?_, rfl, fun _ => rfl⟩
  simp only [HideAndLockCursor, Prog.calls, Prog.finish, hcx, hcy, hix, hiy,
    addLONG_one tx hxr.1 hxr.2, addLONG_one ty hyr.1 hyr.2]

/-- Witness for C1: the double nearest `10.9` and the double `-0.5`. -/
theorem HideAndLockCursor_issues_three_calls_witness :
    (HideAndLockCursor d10_9 dNegHalf).calls (fun _ => 0) =
        [.ShowCursor false, .ClipCursor (some ⟨10, 0, 10 + 1, 0 + 1⟩), .SetCursorPos 10 0]
      ∧ ((HideAndLockCursor d10_9 dNegHalf).run OsState.initial).displayCount
          = OsState.initial.displayCount - 1
      ∧ ∀ w : Int, ((HideAndLockCursor d10_9 dNegHalf).run OsState.initial).affinity w
          = OsState.initial.affinity w :=
  HideAndLockCursor_issues_three_calls OsState.initial d10_9 dNegHalf 10 0 (fun _ => 0)
    (by decide) (by decide) (by decide) (by decide)

/-- Counterexample to C1 as stated.  The double `2147483647` truncates to
`2^31 - 1`, which fits a signed 32-bit integer, and the rectangle handed to
`ClipCursor` has `right = -2^31`, not `2^31`: the sum `rect.left + 1` is a
`LONG` and cannot hold `2^31`. -/
theorem HideAndLockCursor_right_wraps_at_max :
    (Double.ofInt 2147483647).trunc = some 2147483647
      ∧ (Double.ofInt 0).trunc = some 0
      ∧ (HideAndLockCursor (Double.ofInt 2147483647) (Double.ofInt 0)).calls (fun _ => 1) =
          [.ShowCursor false, .ClipCursor (some ⟨2147483647, 0, -2147483648, 1⟩),
            .SetCursorPos 2147483647 0]
      ∧ (HideAndLockCursor (Double.ofInt 2147483647) (Double.ofInt 0)).calls (fun _ => 1) ≠
          [.ShowCursor false, .ClipCursor (some ⟨2147483647, 0, 2147483647 + 1, 0 + 1⟩),
            .SetCursorPos 2147483647 0] := by
  decide

/-- C2, as amended.  For every starting state and every pair of numbers whose
truncations `tx`, `ty` lie between `-2^31` and `2^31 - 2`, after
`HideAndLockCursor` the cursor is at `(tx, ty)`, the clipping rectangle is
`(tx, ty, tx + 1, ty + 1)`, that rectangle contains the cursor position and
no other point, and every later position request is adjusted to
`(tx, ty)`. -/
theorem HideAndLockCursor_pins_cursor (s : OsState) (x y : Double) (tx ty : Int)
    (hx : x.trunc = some tx) (hy : y.trunc = some ty)
    (hxr : -2147483648 ≤ tx ∧ tx ≤ 2147483646) (hyr : -2147483648 ≤ ty ∧ ty ≤ 2147483646) :
    ((HideAndLockCursor x y).run s).cursorPos = (tx, ty)
      ∧ ((HideAndLockCursor x y).run s).clip = some ⟨tx, ty, tx + 1, ty + 1⟩
      ∧ RECT.contains ⟨tx, ty, tx + 1, ty + 1⟩ ((HideAndLockCursor x y).run s).cursorPos
      ∧ (∀ p : Int × Int, RECT.contains ⟨tx, ty, tx + 1, ty + 1⟩ p ↔ p = (tx, ty))
      ∧ ∀ a b : Int,
          (osStep ((HideAndLockCursor x y).run s) (.SetCursorPos a b)).1.cursorPos = (tx, ty) := by
  have hcx := castLONG_of_fits x tx hx hxr.1 (by omega)
  have hcy := castLONG_of_fits y ty hy hyr.1 (by omega)
  have hrun : (HideAndLockCursor x y).run s =
      { displayCount := s.displayCount - 1, clip := some ⟨tx, ty, tx + 1, ty + 1⟩,
        cursorPos := (tx, ty), affinity := s.affinity } := by
    rw [HideAndLockCursor_run, hcx, hcy, addLONG_one tx hxr.1 hxr.2, addLONG_one ty hyr.1 hyr.2,
      clampToClip_pixel]
  have hone : ∀ p : Int × Int, RECT.contains ⟨tx, ty, tx + 1, ty + 1⟩ p ↔ p = (tx, ty) := by
    rintro ⟨a, b⟩
    simp only [RECT.contains, Prod.mk.injEq]
    omega
  rw [hrun]
  refine ⟨rfl, rfl, (hone _).2 rfl, hone, fun a b => ?_⟩
  simp only [osStep, clampToClip_pixel]

/-- Witness for C2: the double nearest `10.9` and the double `-1.5`, from the
initial state. -/
theorem HideAndLockCursor_pins_cursor_witness :
    ((HideAndLockCursor d10_9 dNeg1_5).run OsState.initial).cursorPos = (10, -1)
      ∧ ((HideAndLockCursor d10_9 dNeg1_5).run OsState.initial).clip
          = some ⟨10, -1, 10 + 1, -1 + 1⟩
      ∧ RECT.contains ⟨10, -1, 10 + 1, -1 + 1⟩
          ((HideAndLockCursor d10_9 dNeg1_5).run OsState.initial).cursorPos
      ∧ (∀ p : Int × Int, RECT.contains ⟨10, -1, 10 + 1, -1 + 1⟩ p ↔ p = (10, -1))
      ∧ ∀ a b : Int,
          (osStep ((HideAndLockCursor d10_9 dNeg1_5).run OsState.initial)
            (.SetCursorPos a b)).1.cursorPos = (10, -1) :=
  HideAndLockCursor_pins_cursor OsState.initial d10_9 dNeg1_5 10 (-1)
    (by decide) (by decide) (by decide) (by decide)

/-- Counterexample to C2 as stated.  With `x` the double `2147483647`, whose
truncation fits a signed 32-bit integer, the clipping rectangle set by
`HideAndLockCursor` is `(2^31 - 1, 0, -2^31, 1)`: it does not contain the
cursor position, nor any other point. -/
theorem HideAndLockCursor_clip_empty_at_max :
    (Double.ofInt 2147483647).trunc = some 2147483647
      ∧ (Double.ofInt 0).trunc = some 0
      ∧ ((HideAndLockCursor (Double.ofInt 2147483647) (Double.ofInt 0)).run OsState.initial).clip
          = some ⟨2147483647, 0, -2147483648, 1⟩
      ∧ ((HideAndLockCursor (Double.ofInt 2147483647) (Double.ofInt 0)).run
            OsState.initial).cursorPos = (2147483647, 0)
      ∧ ∀ p : Int × Int, ¬ RECT.contains ⟨2147483647, 0, -2147483648, 1⟩ p := by
  refine ⟨by decide, by decide, by decide, by decide, fun p h => ?_⟩
  simp only [RECT.contains] at h
  omega

/-- C3.  For every starting state, argument list and system answers,
`RestoreCursor` issues `ShowCursor(TRUE)` and then `ClipCursor(NULL)` and
nothing else; the run raises the display counter by exactly one, leaves no
clipping rectangle, and keeps the cursor position and the display affinity of
every window; the program does not depend on the argument list. -/
theorem RestoreCursor_frame (s : OsState) (args : List Double) (answers : Nat → Int) :
    (RestoreCursor args).calls answers = [.ShowCursor true, .ClipCursor none]
      ∧ (osStep s (.ShowCursor true)).1.displayCount = s.displayCount + 1
      ∧ ((RestoreCursor args).run s).displayCount = s.displayCount + 1
      ∧ ((RestoreCursor args).run s).clip = none
      ∧ ((RestoreCursor args).run s).cursorPos = s.cursorPos
      ∧ (∀ w : Int, ((RestoreCursor args).run s).affinity w = s.affinity w)
      ∧ ∀ others : List Double, RestoreCursor others = RestoreCursor args :=
  ⟨rfl, rfl, rfl, rfl, rfl, fun _ => rfl, fun _ => rfl⟩

/-- C4.  For every state, a second `RestoreCursor` leaves the clipping
rectangle as the first one left it, none, and raises the display counter once
more: after two calls it is exactly one above its value after one call. -/
theorem RestoreCursor_twice (s : OsState) :
    ((RestoreCursor []).run ((RestoreCursor []).run s)).clip = ((RestoreCursor []).run s).clip
      ∧ ((RestoreCursor []).run s).clip = none
      ∧ ((RestoreCursor []).run ((RestoreCursor []).run s)).displayCount
          = ((RestoreCursor []).run s).displayCount + 1
      ∧ ((RestoreCursor []).run s).displayCount
          < ((RestoreCursor []).run ((RestoreCursor []).run s)).displayCount := by
  refine ⟨rfl, rfl, rfl, ?_⟩
  simp only [RestoreCursor_run]
  omega

/-- C5.  From every state with the cursor shown and for every pair of numbers
whose truncations fit a signed 32-bit integer, `HideAndLockCursor` followed by
one `RestoreCursor` gives a state whose display counter is the starting one,
so the cursor is shown, and which has no clipping rectangle, so every position
request is honoured as it is. -/
theorem hide_then_restore (s : OsState) (x y : Double) (tx ty : Int)
    (_hx : x.trunc = some tx) (_hy : y.trunc = some ty)
    (_hxr : -2147483648 ≤ tx ∧ tx ≤ 2147483647) (_hyr : -2147483648 ≤ ty ∧ ty ≤ 2147483647)
    (hvis : s.cursorVisible) :
    ((RestoreCursor []).run ((HideAndLockCursor x y).run s)).displayCount = s.displayCount
      ∧ ((RestoreCursor []).run ((HideAndLockCursor x y).run s)).cursorVisible
      ∧ ((RestoreCursor []).run ((HideAndLockCursor x y).run s)).clip = none
      ∧ ∀ a b : Int,
          (osStep ((RestoreCursor []).run ((HideAndLockCursor x y).run s))
            (.SetCursorPos a b)).1.cursorPos = (a, b) := by
  have hcount :
      ((RestoreCursor []).run ((HideAndLockCursor x y).run s)).displayCount = s.displayCount := by
    simp only [RestoreCursor_run, HideAndLockCursor_run]
    omega
  refine ⟨hcount, ?_, rfl, fun _ _ => rfl⟩
  unfold OsState.cursorVisible at hvis ⊢
  rw [hcount]
  exact hvis

/-- Witness for C5: the largest 32-bit coordinate and the double `-0.5`, from
the initial state. -/
theorem hide_then_restore_witness :
    ((RestoreCursor []).run
        ((HideAndLockCursor (Double.ofInt 2147483647) dNegHalf).run OsState.initial)).displayCount
        = OsState.initial.displayCount
      ∧ ((RestoreCursor []).run
        ((HideAndLockCursor (Double.ofInt 2147483647) dNegHalf).run OsState.initial)).cursorVisible
      ∧ ((RestoreCursor []).run
        ((HideAndLockCursor (Double.ofInt 2147483647) dNegHalf).run OsState.initial)).clip = none
      ∧ ∀ a b : Int,
          (osStep ((RestoreCursor []).run
            ((HideAndLockCursor (Double.ofInt 2147483647) dNegHalf).run OsState.initial))
            (.SetCursorPos a b)).1.cursorPos = (a, b) :=
  hide_then_restore OsState.initial (Double.ofInt 2147483647) dNegHalf 2147483647 0
    (by decide) (by decide) (by decide) (by decide) (by decide)

/-- C6.  For every starting state, every list of `n` coordinate pairs whose
truncations fit a signed 32-bit integer and every `m`, after the `n` calls of
`HideAndLockCursor` and then `m` calls of `RestoreCursor` the display counter
is the starting one minus `n` plus `m`; so from a counter of zero the cursor is
shown again exactly when `n ≤ m`. -/
theorem counter_stacks (s : OsState) (coords : List (Double × Double)) (m : Nat)
    (_hfit : ∀ p ∈ coords, ∃ tx ty : Int, p.1.trunc = some tx ∧ p.2.trunc = some ty
      ∧ (-2147483648 ≤ tx ∧ tx ≤ 2147483647) ∧ (-2147483648 ≤ ty ∧ ty ≤ 2147483647)) :
    (restoreTimes m (hideAll coords s)).displayCount = s.displayCount - coords.length + m
      ∧ (s.displayCount = 0 →
          ((restoreTimes m (hideAll coords s)).cursorVisible ↔ coords.length ≤ m)) := by
  have hcount : (restoreTimes m (hideAll coords s)).displayCount
      = s.displayCount - coords.length + m := by
    rw [restoreTimes_displayCount, hideAll_displayCount]
  refine ⟨hcount, fun h0 => ?_⟩
  unfold OsState.cursorVisible
  rw [hcount, h0]
  omega

/-- Witness for C6: two hides and one restore from the initial state. -/
theorem counter_stacks_witness :
    (restoreTimes 1 (hideAll [(Double.ofInt 0, Double.ofInt 0), (d10_9, dNegHalf)]
        OsState.initial)).displayCount
        = OsState.initial.displayCount
          - ([(Double.ofInt 0, Double.ofInt 0), (d10_9, dNegHalf)] : List _).length + (1 : Nat)
      ∧ (OsState.initial.displayCount = 0 →
          ((restoreTimes 1 (hideAll [(Double.ofInt 0, Double.ofInt 0), (d10_9, dNegHalf)]
              OsState.initial)).cursorVisible
            ↔ ([(Double.ofInt 0, Double.ofInt 0), (d10_9, dNegHalf)] : List _).length ≤ 1)) :=
  counter_stacks OsState.initial [(Double.ofInt 0, Double.ofInt 0), (d10_9, dNegHalf)] 1
    (by
      intro p hp
      simp only [List.mem_cons, List.mem_singleton, List.not_mem_nil, or_false] at hp
      rcases hp with rfl | rfl
      · exact ⟨0, 0, by decide, by decide, by decide, by decide⟩
      · exact ⟨10, 0, by decide, by decide, by decide, by decide⟩)

/-- C7, as amended.  From a state with display counter zero and no clipping
rectangle, `HideAndLockCursor(0, 0)`, `HideAndLockCursor(10, 10)` and one
`RestoreCursor()` leave no clipping rectangle and the display counter at `-1`,
one below its start, so the cursor is still hidden; a second `RestoreCursor()`
brings the counter back to zero and the cursor is shown. -/
theorem hide_hide_restore_needs_two (s : OsState) (h0 : s.displayCount = 0)
    (_hclip : s.clip = none) :
    (hideHideRestore s).clip = none
      ∧ (hideHideRestore s).displayCount = -1
      ∧ ¬ (hideHideRestore s).cursorVisible
      ∧ ((RestoreCursor []).run (hideHideRestore s)).displayCount = s.displayCount
      ∧ ((RestoreCursor []).run (hideHideRestore s)).cursorVisible
      ∧ ((RestoreCursor []).run (hideHideRestore s)).clip = none := by
  have h1 : (hideHideRestore s).displayCount = -1 := by
    simp only [hideHideRestore, RestoreCursor_run, HideAndLockCursor_run, h0]
    decide
  have h2 : ((RestoreCursor []).run (hideHideRestore s)).displayCount = s.displayCount := by
    show (hideHideRestore s).displayCount + 1 = s.displayCount
    rw [h1, h0]
    rfl
  refine ⟨rfl, h1, ?_, h2, ?_, rfl⟩
  · unfold OsState.cursorVisible
    rw [h1]
    decide
  · unfold OsState.cursorVisible
    rw [h2, h0]

/-- Witness for C7: the initial state. -/
theorem hide_hide_restore_needs_two_witness :
    (hideHideRestore OsState.initial).clip = none
      ∧ (hideHideRestore OsState.initial).displayCount = -1
      ∧ ¬ (hideHideRestore OsState.initial).cursorVisible
      ∧ ((RestoreCursor []).run (hideHideRestore OsState.initial)).displayCount
          = OsState.initial.displayCount
      ∧ ((RestoreCursor []).run (hideHideRestore OsState.initial)).cursorVisible
      ∧ ((RestoreCursor []).run (hideHideRestore OsState.initial)).clip = none :=
  hide_hide_restore_needs_two OsState.initial rfl rfl

/-- Counterexample to C7 as stated.  From the initial state, whose display
counter is zero and which has no clipping rectangle, the three calls leave the
display counter at `-1`: it is not back at its starting value and the cursor is
not shown. -/
theorem hide_hide_restore_still_hidden :
    OsState.initial.displayCount = 0
      ∧ OsState.initial.clip = none
      ∧ (hideHideRestore OsState.initial).displayCount = -1
      ∧ (hideHideRestore OsState.initial).displayCount ≠ OsState.initial.displayCount
      ∧ ¬ (hideHideRestore OsState.initial).cursorVisible := by
  decide

/-- C8.  For every number `h` whose truncation `th` fits a signed 64-bit
integer, `SetWindowHiddenFromCapture` issues exactly one call,
`SetWindowDisplayAffinity` on window `th` with `WDA_MONITOR`, whatever the
system answers, and ends without a return value; the run gives window `th`
that affinity and leaves the affinity of every other window, the display
counter, the clipping rectangle and the cursor position as they were. -/
theorem SetWindowHiddenFromCapture_frame (s : OsState) (h : Double) (th : Int)
    (answers : Nat → Int) (hh : h.trunc = some th)
    (hr : -9223372036854775808 ≤ th ∧ th ≤ 9223372036854775807) :
    (SetWindowHiddenFromCapture h).calls answers = [.SetWindowDisplayAffinity th .WDA_MONITOR]
      ∧ (SetWindowHiddenFromCapture h).outcome answers = .returned none
      ∧ ((SetWindowHiddenFromCapture h).run s).affinity th = .WDA_MONITOR
      ∧ (∀ w : Int, w ≠ th → ((SetWindowHiddenFromCapture h).run s).affinity w = s.affinity w)
      ∧ ((SetWindowHiddenFromCapture h).run s).displayCount = s.displayCount
      ∧ ((SetWindowHiddenFromCapture h).run s).clip = s.clip
      ∧ ((SetWindowHiddenFromCapture h).run s).cursorPos = s.cursorPos := by
  have hw : castHWND (castInt64 h) = th := by
    rw [castInt64_of_fits h th hh hr.1 hr.2, castHWND_of_fits th hr.1 hr.2]
  refine ⟨?_, rfl, ?_, ?_, rfl, rfl, rfl⟩
  · simp only [SetWindowHiddenFromCapture, Prog.calls, Prog.finish, hw]
  · simp only [SetWindowHiddenFromCapture, Prog.run, Prog.finish, osStep, hw,
      Function.update_same]
  · intro w hne
    simp only [SetWindowHiddenFromCapture, Prog.run, Prog.finish, osStep, hw]
    exact Function.update_noteq hne _ _

/-- Witness for C8: the handle `0x2a0b3c`, from the initial state. -/
theorem SetWindowHiddenFromCapture_frame_witness :
    (SetWindowHiddenFromCapture (Double.ofInt 2755388)).calls (fun _ => 0)
        = [.SetWindowDisplayAffinity 2755388 .WDA_MONITOR]
      ∧ (SetWindowHiddenFromCapture (Double.ofInt 2755388)).outcome (fun _ => 0) = .returned none
      ∧ ((SetWindowHiddenFromCapture (Double.ofInt 2755388)).run OsState.initial).affinity 2755388
          = .WDA_MONITOR
      ∧ (∀ w : Int, w ≠ 2755388 →
          ((SetWindowHiddenFromCapture (Double.ofInt 2755388)).run OsState.initial).affinity w
            = OsState.initial.affinity w)
      ∧ ((SetWindowHiddenFromCapture (Double.ofInt 2755388)).run OsState.initial).displayCount
          = OsState.initial.displayCount
      ∧ ((SetWindowHiddenFromCapture (Double.ofInt 2755388)).run OsState.initial).clip
          = OsState.initial.clip
      ∧ ((SetWindowHiddenFromCapture (Double.ofInt 2755388)).run OsState.initial).cursorPos
          = OsState.initial.cursorPos :=
  SetWindowHiddenFromCapture_frame OsState.initial (Double.ofInt 2755388) 2755388 (fun _ => 0)
    (by decide) (by decide)

/-- C9.  Whatever the system answers to each call, each of the three entry
points issues the same calls with the same arguments, ends by returning
without a value, and throws nothing: after a failed `ShowCursor` or
`ClipCursor`, `HideAndLockCursor` still issues `ClipCursor` and
`SetCursorPos`, and after a failed `ShowCursor`, `RestoreCursor` still issues
`ClipCursor(NULL)`. -/
theorem system_answers_ignored (h x y : Double) (args : List Double) (answers : Nat → Int) :
    ((SetWindowHiddenFromCapture h).calls answers
        = [.SetWindowDisplayAffinity (castHWND (castInt64 h)) .WDA_MONITOR]
      ∧ (SetWindowHiddenFromCapture h).outcome answers = .returned none)
    ∧ ((HideAndLockCursor x y).calls answers
        = [.ShowCursor false,
            .ClipCursor (some ⟨castLONG x, castLONG y, addLONG (castLONG x) 1,
              addLONG (castLONG y) 1⟩),
            .SetCursorPos (castInt x) (castInt y)]
      ∧ (HideAndLockCursor x y).outcome answers = .returned none)
    ∧ ((RestoreCursor args).calls answers = [.ShowCursor true, .ClipCursor none]
      ∧ (RestoreCursor args).outcome answers = .returned none) :=
  ⟨⟨rfl, rfl⟩, ⟨rfl, rfl⟩, ⟨rfl, rfl⟩⟩

/-- C10.  For every pair of numbers whose truncations `tx`, `ty` fit a signed
32-bit integer, `tx` and `ty` are the values of `x` and `y` rounded toward
zero, the conversion to `LONG` used for `left` and `top` and the conversion to
`int` used for `SetCursorPos` both yield them, and `HideAndLockCursor` passes
them on as they are, over the whole 32-bit range, negative values
included. -/
theorem coordinates_truncate_toward_zero (x y : Double) (tx ty : Int) (answers : Nat → Int)
    (hx : x.trunc = some tx) (hy : y.trunc = some ty)
    (hxr : -2147483648 ≤ tx ∧ tx ≤ 2147483647) (hyr : -2147483648 ≤ ty ∧ ty ≤ 2147483647) :
    x.value.map roundTowardZero = some tx
      ∧ y.value.map roundTowardZero = some ty
      ∧ castLONG x = tx ∧ castInt x = tx
      ∧ castLONG y = ty ∧ castInt y = ty
      ∧ ∃ right bottom : Int, (HideAndLockCursor x y).calls answers =
          [.ShowCursor false, .ClipCursor (some ⟨tx, ty, right, bottom⟩), .SetCursorPos tx ty] := by
  have hcx := castLONG_of_fits x tx hx hxr.1 hxr.2
  have hcy := castLONG_of_fits y ty hy hyr.1 hyr.2
  have hix := castInt_of_fits x tx hx hxr.1 hxr.2
  have hiy := castInt_of_fits y ty hy hyr.1 hyr.2
  refine ⟨?_, ?_, hcx, hix, hcy, hiy, addLONG tx 1, addLONG ty 1, ?_⟩
  · rw [← trunc_eq_roundTowardZero, hx]
  · rw [← trunc_eq_roundTowardZero, hy]
  · simp only [HideAndLockCursor, Prog.calls, Prog.finish, hcx, hcy, hix, hiy]

/-- Witness for C10: the double nearest `10.9` gives `10`, `-0.5` gives `0`,
`-1.5` gives `-1` and `-2^31` is passed on as it is. -/
theorem coordinates_truncate_toward_zero_witness :
    (d10_9.value.map roundTowardZero = some 10
      ∧ dNegHalf.value.map roundTowardZero = some 0
      ∧ castLONG d10_9 = 10 ∧ castInt d10_9 = 10
      ∧ castLONG dNegHalf = 0 ∧ castInt dNegHalf = 0
      ∧ ∃ right bottom : Int, (HideAndLockCursor d10_9 dNegHalf).calls (fun _ => 0) =
          [.ShowCursor false, .ClipCursor (some ⟨10, 0, right, bottom⟩), .SetCursorPos 10 0])
    ∧ (dNeg1_5.value.map roundTowardZero = some (-1)
      ∧ (Double.ofInt (-2147483648)).value.map roundTowardZero = some (-2147483648)
      ∧ castLONG dNeg1_5 = -1 ∧ castInt dNeg1_5 = -1
      ∧ castLONG (Double.ofInt (-2147483648)) = -2147483648
      ∧ castInt (Double.ofInt (-2147483648)) = -2147483648
      ∧ ∃ right bottom : Int,
          (HideAndLockCursor dNeg1_5 (Double.ofInt (-2147483648))).calls (fun _ => 0) =
            [.ShowCursor false, .ClipCursor (some ⟨-1, -2147483648, right, bottom⟩),
              .SetCursorPos (-1) (-2147483648)]) :=
  ⟨coordinates_truncate_toward_zero d10_9 dNegHalf 10 0 (fun _ => 0)
      (by decide) (by decide) (by decide) (by decide),
    coordinates_truncate_toward_zero dNeg1_5 (Double.ofInt (-2147483648)) (-1) (-2147483648)
      (fun _ => 0) (by decide) (by decide) (by decide) (by decide)⟩

end Cursor
